import Mathlib

/-!
Verification of the timed-release contest engine of raetzel_winter_2025:
temporal gating of the 24 "doors", QR token verification, and free-text
answer normalization/validation.  Each JavaScript function under scrutiny is
shallowly embedded as an executable Lean definition; machine-level details
(UTF-16 code units, 32-bit JS integer wrap-around) are made explicit.
-/

/-! ## JavaScript string primitives

JS strings are sequences of UTF-16 code units; every character appearing in
the repository's data is in the basic multilingual plane, so we model a JS
string as a Lean `String` (a list of chars) and a code unit as `Char`.
-/

/-- Code points matched by the JS regex class `\s` (ECMA-262 WhiteSpace and
LineTerminator productions). -/
def isJsWsCode (n : Nat) : Bool :=
  (9 ≤ n && n ≤ 13) || n == 32 || n == 160 || n == 5760 ||
  (8192 ≤ n && n ≤ 8202) || n == 8232 || n == 8233 || n == 8239 ||
  n == 8287 || n == 12288 || n == 65279

/-- Whether a character is JS whitespace (regex `\s`, `String.prototype.trim`). -/
def isJsWs (c : Char) : Bool := isJsWsCode c.toNat

/-- JS `String.prototype.toLowerCase`, restricted to the ASCII and Latin-1
ranges actually occurring in the repository's data (German puzzle answers);
identity elsewhere.  Uppercase ASCII letters and the Latin-1 capitals
`À`..`Þ` except `×` (this covers `Ä`, `Ö`, `Ü`) map to their lowercase
forms 32 code points higher, exactly as Unicode simple lowercasing does. -/
def jsToLower (c : Char) : Char :=
  if 65 ≤ c.toNat && c.toNat ≤ 90 then Char.ofNat (c.toNat + 32)
  else if 192 ≤ c.toNat && c.toNat ≤ 222 && c.toNat != 215 then Char.ofNat (c.toNat + 32)
  else c

theorem toNat_ofNat_of_small {n : Nat} (h : n < 55296) : (Char.ofNat n).toNat = n := by
  have hv : n.isValidChar := Or.inl h
  simp [Char.ofNat, hv, Char.ofNatAux, Char.toNat, UInt32.toNat, BitVec.toNat_ofNatLt]

theorem isJsWsCode_eq_false {n : Nat}
    (h : (33 ≤ n ∧ n ≤ 159) ∨ (161 ≤ n ∧ n ≤ 5759)) : isJsWsCode n = false := by
  unfold isJsWsCode
  simp
  omega

theorem jsToLower_toNat_shift {c : Char}
    (h : (65 ≤ c.toNat ∧ c.toNat ≤ 90) ∨
         (192 ≤ c.toNat ∧ c.toNat ≤ 222 ∧ c.toNat ≠ 215)) :
    (jsToLower c).toNat = c.toNat + 32 := by
  have hlt : c.toNat + 32 < 55296 := by omega
  unfold jsToLower
  rcases h with h | h
  · rw [if_pos (by simp; omega)]
    exact toNat_ofNat_of_small hlt
  · by_cases h1 : (65 ≤ c.toNat && c.toNat ≤ 90) = true
    · rw [if_pos h1]
      exact toNat_ofNat_of_small hlt
    · rw [if_neg h1, if_pos (by simp; omega)]
      exact toNat_ofNat_of_small hlt

theorem jsToLower_fixed {c : Char}
    (h : ¬ ((65 ≤ c.toNat ∧ c.toNat ≤ 90) ∨
         (192 ≤ c.toNat ∧ c.toNat ≤ 222 ∧ c.toNat ≠ 215))) :
    jsToLower c = c := by
  unfold jsToLower
  rw [if_neg (by simp; omega), if_neg (by simp; omega)]

/-- Lowercasing is idempotent on characters. -/
theorem jsToLower_idem (c : Char) : jsToLower (jsToLower c) = jsToLower c := by
  by_cases h : (65 ≤ c.toNat ∧ c.toNat ≤ 90) ∨
      (192 ≤ c.toNat ∧ c.toNat ≤ 222 ∧ c.toNat ≠ 215)
  · have hs : (jsToLower c).toNat = c.toNat + 32 := jsToLower_toNat_shift h
    apply jsToLower_fixed
    rw [hs]
    omega
  · rw [jsToLower_fixed h]
    exact jsToLower_fixed h

/-- Lowercasing preserves whitespace-ness in both directions: no JS
whitespace code point is an uppercase letter, and no lowercased output is
whitespace. -/
theorem isJsWs_jsToLower (c : Char) : isJsWs (jsToLower c) = isJsWs c := by
  by_cases h : (65 ≤ c.toNat ∧ c.toNat ≤ 90) ∨
      (192 ≤ c.toNat ∧ c.toNat ≤ 222 ∧ c.toNat ≠ 215)
  · have hs : (jsToLower c).toNat = c.toNat + 32 := jsToLower_toNat_shift h
    unfold isJsWs
    rw [hs, isJsWsCode_eq_false (by omega), isJsWsCode_eq_false (by omega)]
  · rw [jsToLower_fixed h]

/-! ## TimeGate (src/scripts/time.berlin.backup.js and the unnamed live copy)

All `Date` values constructed by this module carry the fixed Berlin winter
offset (+01:00: the contest window Nov 14 2025 .. Jan 2026 lies entirely in
CET), so `Date` comparison order coincides with the order of civil Berlin
time.  A timestamp is modelled as milliseconds since 2025-01-01T00:00:00+01:00
(an `Int`, so instants before 2025 are representable).
-/

namespace WRTime

/-- Cumulative number of days of year 2025 (not a leap year) strictly before
month `m` (1 = January). The linear continuation beyond month 12 is never
used by the embedded code. -/
def daysBeforeMonth2025 : Nat → Nat
  | 1 => 0
  | 2 => 31
  | 3 => 59
  | 4 => 90
  | 5 => 120
  | 6 => 151
  | 7 => 181
  | 8 => 212
  | 9 => 243
  | 10 => 273
  | 11 => 304
  | 12 => 334
  | _ => 365

/-- The instant `month`/`day` 2025 `hour`:`minute` Berlin civil time, in ms
since 2025-01-01T00:00+01:00.  For `day ≥ 1` this agrees with the JS
`new Date(2025, month-1, day, hour, minute, 0, 0)` normalization, which is
linear in the day argument (day 32 of December is Jan 1, and so on). -/
def mkBerlinMs (month day hour minute : Nat) : Int :=
  ((((daysBeforeMonth2025 month + (day - 1)) * 24 + hour) * 60 + minute) * 60000 : Nat)

/-- The fields of `WR_TIME_CFG` consumed by the unlock logic.
`devTestUnlock` is the instant denoted by `devTestUnlockISO`. -/
structure TimeCfg where
  dailyUnlockHour : Nat
  dailyUnlockMinute : Nat
  devTestUnlock : Int
  devTestDay : Nat

/-- `WR_TIME_CFG` of src/scripts/time.berlin.backup.js:
09:00 daily release, door 2 override at 2025-11-14T18:35:00+01:00. -/
def backupCfg : TimeCfg :=
  { dailyUnlockHour := 9
    dailyUnlockMinute := 0
    devTestUnlock := mkBerlinMs 11 14 18 35
    devTestDay := 2 }

/-- `getDoorUnlockDate(day)`: `new Date(2025, 11, day, dailyUnlockHour,
dailyUnlockMinute, 0, 0)` — the scheduled release instant of door `day`. -/
def getDoorUnlockDate (cfg : TimeCfg) (day : Nat) : Int :=
  mkBerlinMs 12 day cfg.dailyUnlockHour cfg.dailyUnlockMinute

/-- `isDoorUnlocked(day, now)`: the dev override for `devTestDay` is checked
first and returns true immediately when `now >= devTestUnlock`; otherwise
(and for every other day) the scheduled release instant decides. -/
def isDoorUnlocked (cfg : TimeCfg) (day : Nat) (now : Int) : Bool :=
  if day == cfg.devTestDay && decide (cfg.devTestUnlock ≤ now) then true
  else decide (getDoorUnlockDate cfg day ≤ now)

/-- `getCurrentDecemberDay(now)` of the unnamed live time module: reads
`now.getMonth()` (0-based, hence always `≤ 11`) and `now.getDate()`; the
source adds one to the month before comparing.  `none` models the JS `null`. -/
def getCurrentDecemberDay (getMonth getDate : Nat) : Option Nat :=
  let month := getMonth + 1
  if month == 12 then some (min getDate 24)
  else if month > 12 then some 24
  else none

end WRTime

namespace WinterRallyeApp

/-- `WinterRallyeApp.isPuzzleAvailable(day, currentTime)` (src/scripts/main.js):
reads only `getMonth()` (0-based) and `getDate()` of `currentTime`. -/
def isPuzzleAvailable (day getMonth getDate : Nat) : Bool :=
  let currentMonth := getMonth + 1
  if currentMonth < 12 then false
  else if currentMonth == 12 && decide (getDate < day) then false
  else true

end WinterRallyeApp

/-- C1: For every challenge day other than the dev-test day (no override
configured) and every time `now`, `isDoorUnlocked day now` is `false` when
`now` is strictly before 09:00 Berlin time on December `day` 2025 and `true`
at or after that instant (boundary inclusive).  Stated for every override
instant and every dev-test day, hence for both shipped configurations. -/
theorem door_unlock_boundary (devUnlock : Int) (devDay : Nat) (day : Nat) (now : Int)
    (hday : day ≠ devDay) :
    (now < WRTime.mkBerlinMs 12 day 9 0 →
      WRTime.isDoorUnlocked ⟨9, 0, devUnlock, devDay⟩ day now = false) ∧
    (WRTime.mkBerlinMs 12 day 9 0 ≤ now →
      WRTime.isDoorUnlocked ⟨9, 0, devUnlock, devDay⟩ day now = true) := by
  unfold WRTime.isDoorUnlocked WRTime.getDoorUnlockDate
  have hne : (day == devDay) = false := by simp [hday]
  constructor <;> intro h <;> simp [hne] <;> omega

/-- Witness for `door_unlock_boundary`: door 7 is locked one minute before
09:00 on December 7 2025 and unlocked at 09:00 sharp (override instant and
dev-test day taken from the backup configuration). -/
theorem door_unlock_boundary_witness :
    WRTime.isDoorUnlocked ⟨9, 0, WRTime.mkBerlinMs 11 14 18 35, 2⟩ 7
      (WRTime.mkBerlinMs 12 7 8 59) = false ∧
    WRTime.isDoorUnlocked ⟨9, 0, WRTime.mkBerlinMs 11 14 18 35, 2⟩ 7
      (WRTime.mkBerlinMs 12 7 9 0) = true :=
  ⟨(door_unlock_boundary _ 2 7 _ (by decide)).1 (by decide),
   (door_unlock_boundary _ 2 7 _ (by decide)).2 (by decide)⟩

/-- C2: with the backup configuration, door 2 carries the override instant
2025-11-14T18:35 (+01:00), earlier than its scheduled release
2025-12-02T09:00.  `isDoorUnlocked 2 now` is `true` for every `now` at or
after the override — even though such `now` can lie before the scheduled
release — and `false` for every `now` strictly before the override (any such
`now` also precedes the scheduled release); in particular it is `true` at
Nov-14T18:36 and `false` at Nov-14T18:00. -/
theorem door2_override_wins :
    (∀ now : Int, WRTime.mkBerlinMs 11 14 18 35 ≤ now →
      WRTime.isDoorUnlocked WRTime.backupCfg 2 now = true) ∧
    (∀ now : Int, now < WRTime.mkBerlinMs 11 14 18 35 →
      WRTime.isDoorUnlocked WRTime.backupCfg 2 now = false) ∧
    WRTime.isDoorUnlocked WRTime.backupCfg 2 (WRTime.mkBerlinMs 11 14 18 36) = true ∧
    WRTime.isDoorUnlocked WRTime.backupCfg 2 (WRTime.mkBerlinMs 11 14 18 0) = false := by
  refine ⟨?_, ?_, ?_, ?_⟩
  · intro now h
    unfold WRTime.isDoorUnlocked WRTime.backupCfg
    simp_all
  · intro now h
    unfold WRTime.isDoorUnlocked WRTime.backupCfg WRTime.getDoorUnlockDate
    have h2 : ¬ WRTime.mkBerlinMs 12 2 9 0 ≤ now := by
      simp only [WRTime.mkBerlinMs, WRTime.daysBeforeMonth2025] at h ⊢
      omega
    simp_all
  · decide
  · decide

/-- Witness for `door2_override_wins`: instantiate the two universally
quantified conjuncts one minute after and 35 minutes before the override. -/
theorem door2_override_wins_witness :
    WRTime.isDoorUnlocked WRTime.backupCfg 2 (WRTime.mkBerlinMs 11 14 18 36) = true ∧
    WRTime.isDoorUnlocked WRTime.backupCfg 2 (WRTime.mkBerlinMs 11 14 18 0) = false :=
  ⟨door2_override_wins.1 _ (by decide), door2_override_wins.2.1 _ (by decide)⟩

/-- C7 (code bug): before December nothing is available — but contrary to the
code's own comment "Nach Dezember: alle verfügbar", after the contest December
nothing is available either.  `getMonth()` is 0-based, so the compared
`month = getMonth() + 1` lies in 1..12 and the `month > 12` branch is dead:
in January (`getMonth() = 0`) `getCurrentDecemberDay` yields `null` and
`isPuzzleAvailable` yields `false` for every door, e.g. at January 15 for
door 1.  The first two conjuncts cover every non-December month, which
includes both the claim's correct before-window half and its violated
after-window half. -/
theorem non_december_nothing_available :
    (∀ (m0 : Fin 11) (day date : Nat),
      WinterRallyeApp.isPuzzleAvailable day m0.val date = false) ∧
    (∀ (m0 : Fin 11) (date : Nat),
      WRTime.getCurrentDecemberDay m0.val date = none) ∧
    WinterRallyeApp.isPuzzleAvailable 1 0 15 = false ∧
    WRTime.getCurrentDecemberDay 0 15 = none := by
  refine ⟨?_, ?_, by decide, by decide⟩
  · intro m0 day date
    have h : m0.val < 11 := m0.isLt
    simp only [WinterRallyeApp.isPuzzleAvailable]
    rw [if_pos (by omega)]
  · intro m0 date
    have h : m0.val < 11 := m0.isLt
    simp only [WRTime.getCurrentDecemberDay]
    rw [if_neg (by simp; omega), if_neg (by omega)]

/-! ## AnswerNormalizer + AnswerVerifier (src/scripts/music.js, AnswersStore)

`normalizeAnswer(answer, config)` applies, in order, the comma-separated rule
names of `config.normalize` (default `'lowercase, trim, collapse-spaces'`);
unknown rule names are skipped with a console warning.  `validateAnswer`
checks the accepted-answer array first, then salted hashes via the external
`SecurityStatic.validateAnswerHash` (modelled as an oracle parameter), and
defaults to accepting.
-/

namespace AnswersStore

/-- JS `String.prototype.split(',')` on the character list, accumulator
holding the current segment reversed. -/
def splitOnCommaAux : List Char → List Char → List (List Char)
  | [], acc => [acc.reverse]
  | c :: rest, acc =>
    if c = ',' then acc.reverse :: splitOnCommaAux rest []
    else splitOnCommaAux rest (c :: acc)

def splitOnComma (l : List Char) : List (List Char) := splitOnCommaAux l []

/-- JS `String.prototype.trim`: drop leading and trailing JS whitespace. -/
def jsTrim (l : List Char) : List Char :=
  ((l.dropWhile isJsWs).reverse.dropWhile isJsWs).reverse

/-- JS `replace(/\s+/g, ' ')`: every maximal run of whitespace becomes one
space.  The flag records whether we are inside an already-replaced run. -/
def collapseSpacesAux : Bool → List Char → List Char
  | _, [] => []
  | inWs, c :: rest =>
    if isJsWs c then
      if inWs then collapseSpacesAux true rest
      else ' ' :: collapseSpacesAux true rest
    else c :: collapseSpacesAux false rest

def collapseSpaces (l : List Char) : List Char := collapseSpacesAux false l

/-- JS `replace(/a/g, sub)` for a single character `a`. -/
def replaceAll (a : Char) (sub : List Char) : List Char → List Char
  | [] => []
  | c :: rest =>
    if c = a then sub ++ replaceAll a sub rest
    else c :: replaceAll a sub rest

/-- The punctuation class `[.,;:!?-]` of the `remove-punctuation` rule. -/
def isJsPunct (c : Char) : Bool :=
  c == '.' || c == ',' || c == ';' || c == ':' || c == '!' || c == '?' || c == '-'

/-- One iteration of the `switch` over rule names in `normalizeAnswer`;
the `default` arm logs a warning and leaves the text unchanged. -/
def applyRule (rule : String) (normalized : List Char) : List Char :=
  match rule with
  | "lowercase" => normalized.map jsToLower
  | "trim" => jsTrim normalized
  | "collapse-spaces" => collapseSpaces normalized
  | "replace-ä->ae" => replaceAll 'ä' ['a', 'e'] normalized
  | "replace-ö->oe" => replaceAll 'ö' ['o', 'e'] normalized
  | "replace-ü->ue" => replaceAll 'ü' ['u', 'e'] normalized
  | "replace-ß->ss" => replaceAll 'ß' ['s', 's'] normalized
  | "remove-spaces" => normalized.filter (fun c => ! isJsWs c)
  | "remove-punctuation" => normalized.filter (fun c => ! isJsPunct c)
  | _ => normalized

/-- The `for (const rule of rules)` loop: apply the named rules in order. -/
def applyRules (rules : List String) (l : List Char) : List Char :=
  rules.foldl (fun acc r => applyRule r acc) l

/-- `normalizeRule.split(',').map(rule => rule.trim())`. -/
def parseNormalizeRules (s : String) : List String :=
  (splitOnComma s.data).map (fun r => String.mk (jsTrim r))

/-- `AnswersStore.normalizeAnswer(answer, config)`.  `cfgNormalize` models
`config.normalize`; JS `config.normalize || 'lowercase, trim, collapse-spaces'`
falls back to the default when the field is absent or the empty string.  The
early return of `''` for a falsy `answer` coincides with running the pipeline
on the empty string (every rule maps `''` to `''`), so it needs no separate
branch. -/
def normalizeAnswer (answer : String) (cfgNormalize : Option String) : String :=
  let normalizeRule :=
    match cfgNormalize with
    | some s => if s = "" then "lowercase, trim, collapse-spaces" else s
    | none => "lowercase, trim, collapse-spaces"
  let rules := parseNormalizeRules normalizeRule
  String.mk (applyRules rules answer.data)

/-- The fields of the stage-2 configuration consumed by `validateAnswer`.
`none` models an absent (or non-array, for the two array fields) property. -/
structure Stage2Config where
  accepted : Option (List String)
  answer_hashes : Option (List String)
  salt : Option String

/-- `AnswersStore.validateAnswer(normalizedAnswer, config)`.
`hashValid answer hash salt` is the external
`SecurityStatic.validateAnswerHash` oracle; `secAvail` models whether
`window.SecurityStatic` with that function exists.  Branch order as in the
source: accepted array first, then salted hashes (`false` when the security
module is missing), else the documented default-accept fallback. -/
def validateAnswer (hashValid : String → String → String → Bool) (secAvail : Bool)
    (normalizedAnswer : String) (config : Stage2Config) : Bool :=
  match config.accepted with
  | some accepted => accepted.contains normalizedAnswer
  | none =>
    match config.answer_hashes with
    | some hashes =>
      if secAvail then
        hashes.any (fun h => hashValid normalizedAnswer h (config.salt.getD ""))
      else false
    | none => true

end AnswersStore

/-- C3: with an accepted-answer array configured, `validateAnswer` returns
true exactly when the normalized answer is literally a member of the array
(no fuzzy matching), for every hash oracle and security-module state; and
under the normalization `'lowercase, trim, collapse-spaces'` with accepted
answers `plasmafilter` and `plasma-filter`, the raw inputs `"Plasmafilter"`
and `" PLASMA-FILTER "` are accepted while `"plasma filter"` (whose internal
space survives collapse-spaces) is rejected. -/
theorem accepted_array_exact_membership :
    (∀ (hashValid : String → String → String → Bool) (secAvail : Bool)
       (ans : String) (accepted : List String) (salt : Option String),
      AnswersStore.validateAnswer hashValid secAvail ans
        ⟨some accepted, none, salt⟩ = true ↔ ans ∈ accepted) ∧
    (∀ (hashValid : String → String → String → Bool) (secAvail : Bool),
      AnswersStore.validateAnswer hashValid secAvail
        (AnswersStore.normalizeAnswer "Plasmafilter"
          (some "lowercase, trim, collapse-spaces"))
        ⟨some ["plasmafilter", "plasma-filter"], none, none⟩ = true ∧
      AnswersStore.validateAnswer hashValid secAvail
        (AnswersStore.normalizeAnswer " PLASMA-FILTER "
          (some "lowercase, trim, collapse-spaces"))
        ⟨some ["plasmafilter", "plasma-filter"], none, none⟩ = true ∧
      AnswersStore.validateAnswer hashValid secAvail
        (AnswersStore.normalizeAnswer "plasma filter"
          (some "lowercase, trim, collapse-spaces"))
        ⟨some ["plasmafilter", "plasma-filter"], none, none⟩ = false) := by
  constructor
  · intro hashValid secAvail ans accepted salt
    simp [AnswersStore.validateAnswer]
  · intro hashValid secAvail
    exact ⟨rfl, rfl, rfl⟩

/-- C5: with neither an accepted-answer array nor answer hashes configured,
`validateAnswer` falls through to the default-accept branch and returns true
for every input whatsoever (and every oracle and security-module state). -/
theorem no_rule_default_accept
    (hashValid : String → String → String → Bool) (secAvail : Bool)
    (ans : String) (salt : Option String) :
    AnswersStore.validateAnswer hashValid secAvail ans ⟨none, none, salt⟩ = true := by
  rfl

/-- C10: with both an accepted-answer array and answer hashes configured,
the accepted-array branch returns first: the verdict is exactly membership in
the array, for every hash oracle — in particular even for an oracle that
would match every hash — so the reference hashes are never consulted. -/
theorem accepted_array_shadows_hashes
    (hashValid : String → String → String → Bool) (secAvail : Bool)
    (ans : String) (accepted : List String) (hashes : List String)
    (salt : Option String) :
    AnswersStore.validateAnswer hashValid secAvail ans
      ⟨some accepted, some hashes, salt⟩ = decide (ans ∈ accepted) := by
  simp [AnswersStore.validateAnswer]

/-- C9 counterexample: the normalizer is not idempotent for every step list.
With the rule string `'replace-ä->ae, lowercase'` (substitution before
lowercasing) the input `"Ä"` normalizes to `"ä"`, which normalizes again to
`"ae"`: the second pass changes the result. -/
theorem normalize_not_idempotent_for_all_steps :
    AnswersStore.normalizeAnswer
        (AnswersStore.normalizeAnswer "Ä" (some "replace-ä->ae, lowercase"))
        (some "replace-ä->ae, lowercase") ≠
      AnswersStore.normalizeAnswer "Ä" (some "replace-ä->ae, lowercase") := by
  decide

/-! ### Idempotence of the default normalization pipeline

The default rule list is `lowercase, trim, collapse-spaces`.  The next block
proves that this composition is idempotent (the counterexample above shows
that other orderings of the shipped rules are not).
-/

namespace AnswersStore

/-- A list does not start with whitespace. -/
def headNotWs (l : List Char) : Prop := ∀ c, l.head? = some c → isJsWs c = false

/-- A list does not end with whitespace. -/
def lastNotWs (l : List Char) : Prop := ∀ c, l.getLast? = some c → isJsWs c = false

theorem headNotWs_nil : headNotWs [] := by
  intro c hc
  simp at hc

theorem lastNotWs_nil : lastNotWs [] := by
  intro c hc
  simp at hc

theorem dropWhile_eq_self_of_headNotWs {l : List Char} (h : headNotWs l) :
    l.dropWhile isJsWs = l := by
  cases l with
  | nil => rfl
  | cons c rest => exact List.dropWhile_cons_of_neg (by simp [h c rfl])

theorem headNotWs_dropWhile (l : List Char) : headNotWs (l.dropWhile isJsWs) := by
  intro c hc
  have h := List.head?_dropWhile_not isJsWs l
  rw [hc] at h
  exact h

theorem headNotWs_of_append {t s : List Char} (h : headNotWs (t ++ s)) : headNotWs t := by
  cases t with
  | nil => exact headNotWs_nil
  | cons c rest =>
    intro d hd
    have hd2 : c = d := by simpa using hd
    subst hd2
    exact h c rfl

/-- `jsTrim` output starts with a non-whitespace character (or is empty). -/
theorem headNotWs_jsTrim (w : List Char) : headNotWs (jsTrim w) := by
  unfold jsTrim
  set u := w.dropWhile isJsWs with hu
  have hsplit := List.takeWhile_append_dropWhile isJsWs u.reverse
  have hpre : u = (u.reverse.dropWhile isJsWs).reverse ++ (u.reverse.takeWhile isJsWs).reverse := by
    calc u = u.reverse.reverse := (List.reverse_reverse u).symm
    _ = (u.reverse.takeWhile isJsWs ++ u.reverse.dropWhile isJsWs).reverse := by rw [hsplit]
    _ = (u.reverse.dropWhile isJsWs).reverse ++ (u.reverse.takeWhile isJsWs).reverse := by
        rw [List.reverse_append]
  have hh : headNotWs u := headNotWs_dropWhile w
  rw [hpre] at hh
  exact headNotWs_of_append hh

/-- `jsTrim` output ends with a non-whitespace character (or is empty). -/
theorem lastNotWs_jsTrim (w : List Char) : lastNotWs (jsTrim w) := by
  unfold jsTrim
  intro c hc
  rw [List.getLast?_reverse] at hc
  exact headNotWs_dropWhile _ c hc

/-- Trimming a list with clean edges is the identity. -/
theorem jsTrim_eq_self {l : List Char} (h1 : headNotWs l) (h2 : lastNotWs l) :
    jsTrim l = l := by
  unfold jsTrim
  rw [dropWhile_eq_self_of_headNotWs h1]
  have h3 : headNotWs l.reverse := by
    intro c hc
    rw [List.head?_reverse] at hc
    exact h2 c hc
  rw [dropWhile_eq_self_of_headNotWs h3, List.reverse_reverse]

theorem jsToLower_space : jsToLower ' ' = ' ' := by decide

theorem map_jsToLower_idem (l : List Char) :
    (l.map jsToLower).map jsToLower = l.map jsToLower := by
  induction l with
  | nil => rfl
  | cons c rest ih => simp [ih, jsToLower_idem]

theorem dropWhile_map_jsToLower (l : List Char) :
    (l.map jsToLower).dropWhile isJsWs = (l.dropWhile isJsWs).map jsToLower := by
  rw [List.dropWhile_map]
  have hfun : (isJsWs ∘ jsToLower) = isJsWs := funext isJsWs_jsToLower
  rw [hfun]

theorem jsTrim_map_jsToLower (l : List Char) :
    jsTrim (l.map jsToLower) = (jsTrim l).map jsToLower := by
  unfold jsTrim
  rw [dropWhile_map_jsToLower, ← List.map_reverse, dropWhile_map_jsToLower,
    ← List.map_reverse]

theorem collapseSpacesAux_map_jsToLower (l : List Char) (b : Bool) :
    collapseSpacesAux b (l.map jsToLower) = (collapseSpacesAux b l).map jsToLower := by
  induction l generalizing b with
  | nil => rfl
  | cons c rest ih =>
    by_cases hc : isJsWs c
    · have hc2 : isJsWs (jsToLower c) = true := by rw [isJsWs_jsToLower, hc]
      cases b with
      | true => simp [collapseSpacesAux, hc, hc2, ih]
      | false => simp [collapseSpacesAux, hc, hc2, ih, jsToLower_space]
    · have hc2 : isJsWs (jsToLower c) = false := by
        rw [isJsWs_jsToLower]
        simpa using hc
      simp [collapseSpacesAux, hc, hc2, ih]

/-- Joint idempotence statement for the collapse-spaces automaton: a second
pass (started in either flag state) leaves the output unchanged. -/
theorem collapseSpacesAux_idem (l : List Char) :
    (∀ b, collapseSpacesAux false (collapseSpacesAux b l) = collapseSpacesAux b l) ∧
    collapseSpacesAux true (collapseSpacesAux true l) = collapseSpacesAux true l := by
  have hsp : isJsWs ' ' = true := by decide
  induction l with
  | nil => exact ⟨fun b => rfl, rfl⟩
  | cons c rest ih =>
    by_cases hc : isJsWs c
    · constructor
      · intro b
        cases b with
        | true =>
          simp only [collapseSpacesAux, hc, if_pos, if_true]
          exact ih.1 true
        | false =>
          simp only [collapseSpacesAux, hc, if_true, hsp, if_false]
          rw [ih.2]
      · simp only [collapseSpacesAux, hc, if_true]
        exact ih.2
    · constructor
      · intro b
        simp only [collapseSpacesAux, hc, if_neg, Bool.false_eq_true, if_false]
        rw [ih.1 false]
      · simp only [collapseSpacesAux, hc, Bool.false_eq_true, if_false]
        rw [ih.1 false]

theorem headNotWs_collapseSpaces {l : List Char} (h : headNotWs l) :
    headNotWs (collapseSpaces l) := by
  cases l with
  | nil => exact headNotWs_nil
  | cons c rest =>
    have hc : isJsWs c = false := h c rfl
    intro d hd
    unfold collapseSpaces collapseSpacesAux at hd
    rw [hc] at hd
    simp at hd
    exact hd ▸ hc

theorem getLast?_cons_of_ne {a : Char} {l : List Char} (h : l ≠ []) :
    (a :: l).getLast? = l.getLast? := by
  cases l with
  | nil => exact absurd rfl h
  | cons b t => exact List.getLast?_cons_cons ..

theorem collapseSpacesAux_ne_nil {l : List Char} (b : Bool)
    (hlast : lastNotWs l) (hne : l ≠ []) : collapseSpacesAux b l ≠ [] := by
  induction l generalizing b with
  | nil => exact absurd rfl hne
  | cons c rest ih =>
    by_cases hc : isJsWs c
    · have hrne : rest ≠ [] := by
        intro hr
        subst hr
        exact absurd (hlast c rfl) (by simp [hc])
      have hrlast : lastNotWs rest := by
        intro d hd
        apply hlast
        cases rest with
        | nil => exact absurd rfl hrne
        | cons e tail => rw [List.getLast?_cons_cons]; exact hd
      cases b with
      | true =>
        simp only [collapseSpacesAux, hc, if_true]
        exact ih true hrlast hrne
      | false => simp [collapseSpacesAux, hc]
    · simp [collapseSpacesAux, hc]

theorem lastNotWs_collapseSpacesAux {l : List Char} (b : Bool)
    (hlast : lastNotWs l) : lastNotWs (collapseSpacesAux b l) := by
  induction l generalizing b with
  | nil => exact lastNotWs_nil
  | cons c rest ih =>
    by_cases hrne : rest = []
    · subst hrne
      by_cases hc : isJsWs c
      · exact absurd (hlast c rfl) (by simp [hc])
      · intro d hd
        simp only [collapseSpacesAux, hc, Bool.false_eq_true, if_false] at hd
        simp at hd
        have hc2 : isJsWs c = false := by simpa using hc
        exact hd ▸ hc2
    · have hrlast : lastNotWs rest := by
        intro d hd
        apply hlast
        cases rest with
        | nil => exact absurd rfl hrne
        | cons e tail => rw [List.getLast?_cons_cons]; exact hd
      by_cases hc : isJsWs c
      · cases b with
        | true =>
          simp only [collapseSpacesAux, hc, if_true]
          exact ih true hrlast
        | false =>
          simp only [collapseSpacesAux, hc, if_true, Bool.false_eq_true, if_false]
          intro d hd
          have hne2 : collapseSpacesAux true rest ≠ [] :=
            collapseSpacesAux_ne_nil true hrlast hrne
          rw [getLast?_cons_of_ne hne2] at hd
          exact ih true hrlast d hd
      · simp only [collapseSpacesAux, hc, Bool.false_eq_true, if_false]
        intro d hd
        by_cases hne2 : collapseSpacesAux false rest = []
        · rw [hne2] at hd
          simp at hd
          rw [← hd]
          simpa using hc
        · rw [getLast?_cons_of_ne hne2] at hd
          exact ih false hrlast d hd

theorem map_jsToLower_fix_pipeline (l : List Char) :
    (collapseSpaces (jsTrim (l.map jsToLower))).map jsToLower =
      collapseSpaces (jsTrim (l.map jsToLower)) := by
  unfold collapseSpaces
  rw [← collapseSpacesAux_map_jsToLower, ← jsTrim_map_jsToLower, map_jsToLower_idem]

/-- The composition collapse-spaces after trim after lowercase is idempotent
on character lists. -/
theorem defaultPipeline_idem (l : List Char) :
    collapseSpaces (jsTrim ((collapseSpaces (jsTrim (l.map jsToLower))).map jsToLower)) =
      collapseSpaces (jsTrim (l.map jsToLower)) := by
  rw [map_jsToLower_fix_pipeline]
  have h3 : headNotWs (collapseSpaces (jsTrim (l.map jsToLower))) :=
    headNotWs_collapseSpaces (headNotWs_jsTrim _)
  have h4 : lastNotWs (collapseSpaces (jsTrim (l.map jsToLower))) :=
    lastNotWs_collapseSpacesAux false (lastNotWs_jsTrim _)
  rw [jsTrim_eq_self h3 h4]
  exact (collapseSpacesAux_idem _).1 false

theorem parseNormalizeRules_default :
    parseNormalizeRules "lowercase, trim, collapse-spaces" =
      ["lowercase", "trim", "collapse-spaces"] := by
  decide

end AnswersStore

/-- C9 amended: the normalizer is idempotent for the default step list
`lowercase, trim, collapse-spaces` (the list the shipped configuration uses
and the one the spec's example steps name, in that order): re-normalizing an
already-normalized answer with it changes nothing, for every input string. -/
theorem normalize_default_steps_idempotent (x : String) :
    AnswersStore.normalizeAnswer (AnswersStore.normalizeAnswer x none) none =
      AnswersStore.normalizeAnswer x none := by
  have hdef : ∀ y : String, AnswersStore.normalizeAnswer y none =
      String.mk (AnswersStore.collapseSpaces
        (AnswersStore.jsTrim (y.data.map jsToLower))) := by
    intro y
    show String.mk (AnswersStore.applyRules
      (AnswersStore.parseNormalizeRules "lowercase, trim, collapse-spaces") y.data) = _
    rw [AnswersStore.parseNormalizeRules_default]
    rfl
  rw [hdef, hdef]
  exact congrArg String.mk (AnswersStore.defaultPipeline_idem x.data)

/-! ## QRVerify (unnamed QR verification module) and the shared cache-key hash

JS bitwise operators work on 32-bit two's-complement integers; `toInt32`
makes the ECMA-262 ToInt32 conversion explicit.  The hash loop
`hash = ((hash << 5) - hash) + charCode; hash = hash & hash` appears
verbatim in both `QRVerify.getCacheKey` and `AnswerUtil.getCacheKey`.
-/

/-- ECMA-262 ToInt32: reduce an exact integer into `[-2^31, 2^31)`. -/
def toInt32 (n : Int) : Int :=
  (n + 2147483648).emod 4294967296 - 2147483648

/-- The common cache-key hash loop over the UTF-16 code units of `s`
(JS `charCodeAt`): `hash` is a 32-bit value throughout; the shift wraps,
the subtraction and addition are exact doubles, `hash & hash` re-wraps. -/
def js31Hash (s : String) : Int :=
  s.data.foldl (fun hash c => toInt32 (toInt32 (hash * 32) - hash + (c.toNat : Int))) 0

/-- JS `Number.prototype.toString(36)` digit (0-9 then a-z, lowercase). -/
def digit36 (n : Nat) : Char :=
  if n < 10 then Char.ofNat (48 + n) else Char.ofNat (87 + n)

/-- Base-36 digit expansion, most significant first; `fuel` bounds the
recursion and exceeds the digit count whenever it starts at `n + 1`. -/
def natToBase36Go : Nat → Nat → List Char → List Char
  | 0, _, acc => acc
  | fuel + 1, n, acc =>
    let d := digit36 (n % 36)
    if n / 36 = 0 then d :: acc else natToBase36Go fuel (n / 36) (d :: acc)

def natToBase36 (n : Nat) : String := String.mk (natToBase36Go (n + 1) n [])

/-- JS `Number.prototype.toString(36)` on an integer. -/
def jsToString36 (n : Int) : String :=
  if n < 0 then "-" ++ natToBase36 n.natAbs else natToBase36 n.toNat

namespace QRVerify

/-- JSON-like primitive values occurring in QR payloads and expected-context
objects; on these, JS strict equality is structural equality. -/
inductive JsVal where
  | null : JsVal
  | str : String → JsVal
  | num : Int → JsVal
  | bool : Bool → JsVal
deriving DecidableEq

/-- Rendering used by the template-string interpolation in error messages
(the source additionally wraps interpolated values in single quotes). -/
def jsValToDisplay : JsVal → String
  | JsVal.null => "null"
  | JsVal.str s => s
  | JsVal.num n => toString n
  | JsVal.bool b => if b then "true" else "false"

/-- Return value of `validateExpectedData`. -/
structure ValidationOutcome where
  valid : Bool
  error : Option String
deriving DecidableEq

/-- The `for (const [key, expectedValue] of Object.entries(expectedData))`
loop of `validateExpectedData`: a key absent from the payload
(`actualValue === undefined`) fails; a non-null expected value different
from the actual value fails; a `null` expected value only requires presence. -/
def validateExpectedDataLoop (payload : List (String × JsVal)) :
    List (String × JsVal) → ValidationOutcome
  | [] => { valid := true, error := none }
  | (key, expectedValue) :: rest =>
    match payload.lookup key with
    | none =>
      { valid := false
        error := some ("Erforderliches Feld " ++ key ++ " fehlt") }
    | some actualValue =>
      if expectedValue ≠ JsVal.null ∧ actualValue ≠ expectedValue then
        { valid := false
          error := some ("Feld " ++ key ++ ": erwartet " ++
            jsValToDisplay expectedValue ++ ", erhalten " ++
            jsValToDisplay actualValue) }
      else validateExpectedDataLoop payload rest

/-- `QRVerify.validateExpectedData(payload, expectedData)`: an absent or
empty expectation object is trivially valid. -/
def validateExpectedData (payload expectedData : List (String × JsVal)) :
    ValidationOutcome :=
  if expectedData.isEmpty then { valid := true, error := none }
  else validateExpectedDataLoop payload expectedData

/-- Parse result of `parseHMACFormat` and friends, as consumed by the
HMAC verification path. -/
structure ParsedQR where
  version : String
  algorithm : String
  keyId : Option String
  signature : String
  payload : List (String × JsVal)
  originalData : String
deriving DecidableEq

/-- A configured key (entry of `publicKeys` / `predefinedKeys`). -/
structure KeyData where
  algorithm : String
  key : String
  keyId : String
deriving DecidableEq

/-- The result objects built by the verification functions.  `payload` is
absent (`none`) in the unknown-key error result; `timestamp` is the
`Date.now()` value passed in explicitly. -/
structure QRResult where
  valid : Bool
  error : Option String
  algorithm : Option String
  keyId : Option String
  payload : Option (List (String × JsVal))
  timestamp : Int
deriving DecidableEq

/-- `QRVerify.verifyHMACWebCrypto(parsed, keyData, expectedData)` on the Web
Crypto path.  `hmacSha256Hex key data` is the oracle for the recomputed
lowercase-hex HMAC-SHA256 tag over `parsed.originalData`; the verdict is the
conjunction of the signature comparison and the expected-data check, and the
reported error is the data-check error when the signature matches, else the
invalid-signature message. -/
def verifyHMACWebCrypto (hmacSha256Hex : String → String → String) (nowMs : Int)
    (parsed : ParsedQR) (keyData : KeyData)
    (expectedData : List (String × JsVal)) : QRResult :=
  let expectedHex := hmacSha256Hex keyData.key parsed.originalData
  let isValid := parsed.signature == expectedHex
  let dataValid := validateExpectedData parsed.payload expectedData
  { valid := isValid && dataValid.valid
    error := if isValid then dataValid.error else some "Ungültige Signatur"
    algorithm := some "HMAC"
    keyId := parsed.keyId
    payload := some parsed.payload
    timestamp := nowMs }

/-- `QRVerify.verifyHMAC(parsed, expectedData)` with Web Crypto available:
an unknown (or null) key id throws `Unbekannte Key-ID`, which the
function's own catch converts into an error result with `valid: false`
and no payload field. -/
def verifyHMAC (hmacSha256Hex : String → String → String) (nowMs : Int)
    (publicKeys : List (String × KeyData)) (parsed : ParsedQR)
    (expectedData : List (String × JsVal)) : QRResult :=
  match parsed.keyId.bind (fun k => publicKeys.lookup k) with
  | none =>
    { valid := false
      error := some ("Unbekannte Key-ID: " ++
        (match parsed.keyId with
         | some k => k
         | none => "null"))
      algorithm := some "HMAC"
      keyId := parsed.keyId
      payload := none
      timestamp := nowMs }
  | some keyData => verifyHMACWebCrypto hmacSha256Hex nowMs parsed keyData expectedData

/-- `this.predefinedKeys` (loaded into `publicKeys` by `init`). -/
def predefinedKeys : List (String × KeyData) :=
  [("winter2025",
    { algorithm := "HMAC"
      key := "winter2025_secret_key_demo_only"
      keyId := "winter2025" })]

/-- `QRVerify.getCacheKey(qrData)`: the 32-bit string hash rendered in
base 36.  The raw input is not part of the key. -/
def getCacheKey (qrData : String) : String := jsToString36 (js31Hash qrData)

/-- `this.config.cacheTimeout` (five minutes, in ms). -/
def cacheTimeout : Int := 300000

/-- A `verificationCache` entry. -/
structure CacheEntry where
  result : QRResult
  timestamp : Int
deriving DecidableEq

/-- The cache consultation at the top of `verifyQRCode`: look up by
`getCacheKey(qrData)` alone and return the stored result while it is
fresh.  Nothing about the original input is compared. -/
def cacheLookup (cache : List (String × CacheEntry)) (nowMs : Int)
    (qrData : String) : Option QRResult :=
  match cache.lookup (getCacheKey qrData) with
  | some cached =>
    if nowMs - cached.timestamp < cacheTimeout then some cached.result else none
  | none => none

/-- `cacheVerificationResult(key, result)` below capacity: `Map.set`
overwrites any entry with the same key and inserts the new one.  (The
capacity-eviction branch — at 100 entries, drop the oldest 20 by timestamp —
is not exercised by the verified scenarios and is not modelled.) -/
def cacheVerificationResult (cache : List (String × CacheEntry)) (nowMs : Int)
    (key : String) (result : QRResult) : List (String × CacheEntry) :=
  (key, { result := result, timestamp := nowMs }) ::
    cache.filter (fun p => p.1 != key)

end QRVerify

namespace AnswerUtil

/-- `AnswerUtil.getCacheKey(answer, puzzleData)`: the same 32-bit hash over
`answer + (puzzleData.day || '') + (puzzleData.answerHash || '')`, rendered
in base 36.  `day` and `answerHash` are the string coercions of those
fields (empty when absent). -/
def getCacheKey (answer day answerHash : String) : String :=
  jsToString36 (js31Hash (answer ++ day ++ answerHash))

end AnswerUtil

namespace QRVerify

/-- If some expectation entry fails (required field missing, or a non-null
expected value that differs from the actual one), the expectation loop
reports invalid. -/
theorem validateExpectedDataLoop_mismatch (payload : List (String × JsVal)) :
    ∀ (expected : List (String × JsVal)) (key : String) (v : JsVal),
    (key, v) ∈ expected →
    (payload.lookup key = none ∨ (v ≠ JsVal.null ∧ payload.lookup key ≠ some v)) →
    (validateExpectedDataLoop payload expected).valid = false := by
  intro expected
  induction expected with
  | nil =>
    intro key v hmem _
    simp at hmem
  | cons e rest ih =>
    intro key v hmem hmis
    obtain ⟨k0, v0⟩ := e
    simp only [validateExpectedDataLoop]
    cases hlook : payload.lookup k0 with
    | none => rfl
    | some a0 =>
      dsimp only
      by_cases hcond : v0 ≠ JsVal.null ∧ a0 ≠ v0
      · rw [if_pos hcond]
      · rw [if_neg hcond]
        rcases List.mem_cons.mp hmem with heq | hrest
        · have hk : key = k0 := congrArg Prod.fst heq
          have hv : v = v0 := congrArg Prod.snd heq
          subst hk
          subst hv
          rcases hmis with hnone | ⟨hvn, hne⟩
          · rw [hlook] at hnone
            exact absurd hnone (by simp)
          · rw [hlook] at hne
            have ha : a0 ≠ v := fun h => hne (congrArg some h)
            exact absurd ⟨hvn, ha⟩ hcond
        · exact ih key v hrest hmis

end QRVerify

/-- C4: a cryptographically valid signature is not sufficient.  Whenever the
recomputed HMAC tag equals the presented signature but some field of the
expected context disagrees with the decoded payload — the field is missing,
or carries a different (non-null-expected) value — `verifyHMACWebCrypto`
reports `valid = false`, for every HMAC oracle, time, token, and key. -/
theorem context_mismatch_never_valid
    (hmacSha256Hex : String → String → String) (nowMs : Int)
    (parsed : QRVerify.ParsedQR) (keyData : QRVerify.KeyData)
    (expectedData : List (String × QRVerify.JsVal))
    (key : String) (v : QRVerify.JsVal)
    (hsig : parsed.signature = hmacSha256Hex keyData.key parsed.originalData)
    (hmem : (key, v) ∈ expectedData)
    (hmis : parsed.payload.lookup key = none ∨
      (v ≠ QRVerify.JsVal.null ∧ parsed.payload.lookup key ≠ some v)) :
    (QRVerify.verifyHMACWebCrypto hmacSha256Hex nowMs parsed keyData
      expectedData).valid = false := by
  have hne : expectedData ≠ [] := by
    rintro rfl
    simp at hmem
  have hval : (QRVerify.validateExpectedData parsed.payload expectedData).valid
      = false := by
    unfold QRVerify.validateExpectedData
    rw [if_neg (by simpa using hne)]
    exact QRVerify.validateExpectedDataLoop_mismatch parsed.payload expectedData
      key v hmem hmis
  simp [QRVerify.verifyHMACWebCrypto, hval]

/-- Witness for `context_mismatch_never_valid`: a token over payload
`{day: 3}` whose signature matches the oracle exactly, checked against the
expected context `{day: 2}`, is still rejected. -/
theorem context_mismatch_never_valid_witness :
    (("day", QRVerify.JsVal.num 2) ∈
      ([("day", QRVerify.JsVal.num 2)] : List (String × QRVerify.JsVal))) ∧
    (QRVerify.verifyHMACWebCrypto (fun _ _ => "aaaa") 0
      { version := "hmac"
        algorithm := "HMAC"
        keyId := some "winter2025"
        signature := "aaaa"
        payload := [("day", QRVerify.JsVal.num 3)]
        originalData := "eyJkYXkiOjN9" }
      { algorithm := "HMAC", key := "k", keyId := "winter2025" }
      [("day", QRVerify.JsVal.num 2)]).valid = false :=
  ⟨by decide,
   context_mismatch_never_valid (fun _ _ => "aaaa") 0
     { version := "hmac"
       algorithm := "HMAC"
       keyId := some "winter2025"
       signature := "aaaa"
       payload := [("day", QRVerify.JsVal.num 3)]
       originalData := "eyJkYXkiOjN9" }
     { algorithm := "HMAC", key := "k", keyId := "winter2025" }
     [("day", QRVerify.JsVal.num 2)] "day" (QRVerify.JsVal.num 2)
     rfl (by decide) (Or.inr (by decide))⟩

/-- C6 counterexample: the claim fails — there is a pair of one
INVALID-producing input and one ERROR-producing input whose returned values
are completely indistinguishable.  `AnswersStore.validateAnswer` returns a
bare boolean with no outcome field: a completed check of a wrong answer
against a configured accepted array returns `false`, and a check that could
not be completed (answer hashes configured but the SecurityStatic module
unavailable) also returns `false` — equal values. -/
theorem invalid_error_results_indistinguishable :
    AnswersStore.validateAnswer (fun _ _ _ => false) true "falsch"
      ⟨some ["richtig"], none, none⟩ =
      AnswersStore.validateAnswer (fun _ _ _ => false) false "richtig"
        ⟨none, some ["deadbeef"], none⟩ ∧
    AnswersStore.validateAnswer (fun _ _ _ => false) true "falsch"
      ⟨some ["richtig"], none, none⟩ = false := by
  exact ⟨rfl, rfl⟩

/-- C6 amended: verification results carry no INVALID/ERROR outcome field.
The boolean answer check collapses both to `false` (see the counterexample);
the QR verifier marks both with `valid = false` and distinguishes them only
by the human-readable `error` string: an unknown key id (an ERROR condition,
thrown and converted by the catch) and a wrong signature (a completed
INVALID check) produce different `error` texts but identical `valid`
fields. -/
theorem qr_failures_distinguished_only_by_error_string :
    (QRVerify.verifyHMAC (fun _ _ => "cafe") 0 QRVerify.predefinedKeys
      { version := "hmac"
        algorithm := "HMAC"
        keyId := some "nokey"
        signature := "cafe"
        payload := [("day", QRVerify.JsVal.num 2)]
        originalData := "eyJkYXkiOjJ9" } []).valid = false ∧
    (QRVerify.verifyHMAC (fun _ _ => "cafe") 0 QRVerify.predefinedKeys
      { version := "hmac"
        algorithm := "HMAC"
        keyId := some "nokey"
        signature := "cafe"
        payload := [("day", QRVerify.JsVal.num 2)]
        originalData := "eyJkYXkiOjJ9" } []).error =
      some "Unbekannte Key-ID: nokey" ∧
    (QRVerify.verifyHMAC (fun _ _ => "cafe") 0 QRVerify.predefinedKeys
      { version := "hmac"
        algorithm := "HMAC"
        keyId := some "winter2025"
        signature := "0000"
        payload := [("day", QRVerify.JsVal.num 2)]
        originalData := "eyJkYXkiOjJ9" } []).valid = false ∧
    (QRVerify.verifyHMAC (fun _ _ => "cafe") 0 QRVerify.predefinedKeys
      { version := "hmac"
        algorithm := "HMAC"
        keyId := some "winter2025"
        signature := "0000"
        payload := [("day", QRVerify.JsVal.num 2)]
        originalData := "eyJkYXkiOjJ9" } []).error =
      some "Ungültige Signatur" ∧
    (some "Unbekannte Key-ID: nokey" ≠ some "Ungültige Signatur") ∧
    AnswersStore.validateAnswer (fun _ _ _ => false) true "falsch"
      ⟨some ["richtig"], none, none⟩ =
      AnswersStore.validateAnswer (fun _ _ _ => false) false "richtig"
        ⟨none, some ["deadbeef"], none⟩ := by
  refine ⟨by decide, by decide, by decide, by decide, by decide, rfl⟩

/-- C8 counterexample: cache-key collisions do cause a foreign cached
verdict to be returned.  The distinct tokens `"Aa"` and `"BB"` hash to the
same 32-bit value 2112 (`"1mo"` in base 36), so after a (valid) result is
cached for `"Aa"`, the fresh-cache lookup for `"BB"` returns that very
result; the answer-cache key of `AnswerUtil` collides on the same pair. -/
theorem colliding_inputs_share_cached_verdict :
    ("Aa" : String) ≠ "BB" ∧
    QRVerify.getCacheKey "Aa" = QRVerify.getCacheKey "BB" ∧
    QRVerify.cacheLookup
      (QRVerify.cacheVerificationResult [] 1000 (QRVerify.getCacheKey "Aa")
        { valid := true
          error := none
          algorithm := some "HMAC"
          keyId := some "winter2025"
          payload := some []
          timestamp := 1000 })
      1000 "BB" =
      some
        { valid := true
          error := none
          algorithm := some "HMAC"
          keyId := some "winter2025"
          payload := some []
          timestamp := 1000 } ∧
    AnswerUtil.getCacheKey "Aa" "" "" = AnswerUtil.getCacheKey "BB" "" "" := by
  refine ⟨by decide, by decide, by decide, by decide⟩

/-- C8 amended: the cache is keyed on the 32-bit non-cryptographic hash
alone and stores nothing else identifying the input, so whenever two inputs
collide, a result cached for the first is returned unchanged (within the
TTL) as the verdict for the second — including a VALID result for a
different token. -/
theorem cache_collision_returns_foreign_result (a b : String)
    (res : QRVerify.QRResult) (nowMs : Int) (hab : a ≠ b)
    (hcol : QRVerify.getCacheKey a = QRVerify.getCacheKey b) :
    QRVerify.cacheLookup
      (QRVerify.cacheVerificationResult [] nowMs (QRVerify.getCacheKey a) res)
      nowMs b = some res := by
  unfold QRVerify.cacheLookup QRVerify.cacheVerificationResult
  rw [← hcol]
  simp [QRVerify.cacheTimeout]

/-- Witness for `cache_collision_returns_foreign_result`, at the colliding
pair `"Aa"` and `"BB"` and an arbitrary valid result. -/
theorem cache_collision_returns_foreign_result_witness :
    ("Aa" : String) ≠ "BB" ∧
    QRVerify.getCacheKey "Aa" = QRVerify.getCacheKey "BB" ∧
    QRVerify.cacheLookup
      (QRVerify.cacheVerificationResult [] 7 (QRVerify.getCacheKey "Aa")
        { valid := true
          error := none
          algorithm := some "HMAC"
          keyId := some "winter2025"
          payload := some []
          timestamp := 7 })
      7 "BB" =
      some
        { valid := true
          error := none
          algorithm := some "HMAC"
          keyId := some "winter2025"
          payload := some []
          timestamp := 7 } :=
  ⟨by decide, by decide,
   cache_collision_returns_foreign_result "Aa" "BB" _ 7 (by decide) (by decide)⟩
